import Mathlib

/-!
Verification of the client-side catalog / cart / RFQ core of the FarmersAgent
repository (src/src/App.jsx).  The JavaScript code is shallowly embedded:
every stateful React handler becomes a pure function from the previous state
to the next state, JavaScript numbers holding integers become `Int`, and the
DOM-facing parts (markup, alerts, the 3D viewer) are out of scope exactly as
the specification scopes them out.
-/

namespace FarmersAgent

/-- Bulk pricing tier: one `{ min, priceINR }` entry of a product's `bulkTiers`
array (App.jsx mock data). -/
structure BulkTier where
  min : Int
  priceINR : Int
deriving DecidableEq

/-- Product record as produced by the `initialProducts` mock data (App.jsx lines
33-119) and by the farmer form.  Monetary and quantity fields are JavaScript
numbers holding integers, modelled as `Int`.  Ratings such as `4.7` are stored
scaled by ten (`47`): the code only ever compares ratings (the `ratingDesc`
comparator at App.jsx line 620), and scaling by ten is a strictly monotone
change of representation that preserves every comparison. -/
structure Product where
  id : String
  name : String
  priceINR : Int
  stock : Int
  moq : Int
  category : String
  image : String
  farmerId : String
  rating : Int
  bulkTiers : List BulkTier
deriving DecidableEq

/-- Product `p1` of `initialProducts` (App.jsx lines 34-50). -/
def mangoes : Product :=
  { id := "p1", name := "Alphonso Mangoes (1kg)", priceINR := 299, stock := 4200,
    moq := 50, category := "Fruits",
    image := "https://images.unsplash.com/photo-1550258987-190a2d41a8ba?q=80&w=1200&auto=format&fit=crop",
    farmerId := "f1", rating := 48,
    bulkTiers := [⟨50, 285⟩, ⟨200, 270⟩, ⟨1000, 255⟩] }

/-- Product `p2` of `initialProducts` (App.jsx lines 51-67). -/
def tomatoes : Product :=
  { id := "p2", name := "Organic Tomatoes (1kg)", priceINR := 89, stock := 9000,
    moq := 100, category := "Vegetables",
    image := "https://images.unsplash.com/photo-1546470427-0fd2772bca1c?q=80&w=1200&auto=format&fit=crop",
    farmerId := "f3", rating := 46,
    bulkTiers := [⟨100, 84⟩, ⟨500, 80⟩, ⟨2500, 76⟩] }

/-- Product `p3` of `initialProducts` (App.jsx lines 68-84). -/
def milk : Product :=
  { id := "p3", name := "Fresh Cow Milk (1L)", priceINR := 75, stock := 12000,
    moq := 200, category := "Dairy",
    image := "https://images.unsplash.com/photo-1550581190-9c1c48d21d6c?q=80&w=1200&auto=format&fit=crop",
    farmerId := "f2", rating := 44,
    bulkTiers := [⟨200, 72⟩, ⟨1000, 69⟩, ⟨5000, 66⟩] }

/-- Product `p4` of `initialProducts` (App.jsx lines 85-101). -/
def rice : Product :=
  { id := "p4", name := "Basmati Rice (5kg)", priceINR := 649, stock := 3000,
    moq := 20, category := "Grains",
    image := "https://images.unsplash.com/photo-1607623814075-e51df1bdc82f?q=80&w=1200&auto=format&fit=crop",
    farmerId := "f3", rating := 47,
    bulkTiers := [⟨20, 630⟩, ⟨200, 610⟩, ⟨1000, 595⟩] }

/-- Product `p5` of `initialProducts` (App.jsx lines 102-118). -/
def eggs : Product :=
  { id := "p5", name := "Free‑range Eggs (12)", priceINR := 145, stock := 6000,
    moq := 50, category := "Dairy",
    image := "https://images.unsplash.com/photo-1517959105821-eaf2591984dd?q=80&w=1200&auto=format&fit=crop",
    farmerId := "f2", rating := 45,
    bulkTiers := [⟨50, 140⟩, ⟨500, 135⟩, ⟨3000, 128⟩] }

/-- The five-product mock catalog `initialProducts` (App.jsx lines 33-119). -/
def initialProducts : List Product := [mangoes, tomatoes, milk, rice, eggs]

/-- ASCII lower-casing of one character: the fragment of JavaScript
`String.prototype.toLowerCase` exercised by this app (catalog names and search
text; non-letter characters lower-case to themselves). -/
def lowerChar (c : Char) : Char :=
  if 'A' ≤ c ∧ c ≤ 'Z' then Char.ofNat (c.toNat + 32) else c

/-- Characters of `s.toLowerCase()`. -/
def lowerList (s : String) : List Char := s.toList.map lowerChar

/-- JavaScript `hay.includes(needle)` on strings: `needle` occurs as a
contiguous substring of `hay`. -/
def containsSub (hay needle : List Char) : Bool :=
  if needle.isPrefixOf hay then true
  else
    match hay with
    | [] => false
    | _ :: t => containsSub t needle

/-- Whitespace as removed by JavaScript `String.prototype.trim` (the ASCII
whitespace characters; the extended Unicode space classes are not used by any
data in this repository). -/
def jsWhitespace (c : Char) : Bool :=
  c = ' ' || c = '\t' || c = '\n' || c = '\r' || c = '\x0b' || c = '\x0c'

/-- Truthiness of `q.trim()` in the guard `if (q.trim())` at App.jsx line 615:
true exactly when the query contains a character `trim` would keep. -/
def queryActive (q : String) : Bool := q.toList.any (fun c => !jsWhitespace c)

/-- Case-insensitive name match of App.jsx line 615:
`p.name.toLowerCase().includes(t)` with `t = q.toLowerCase()` — note the query
is lower-cased but NOT trimmed before matching. -/
def nameMatches (q : String) (p : Product) : Bool :=
  containsSub (lowerList p.name) (lowerList q)

/-- The filtering steps of the `filtered` useMemo (App.jsx lines 614-616): the
name filter runs only when `q.trim()` is truthy, the category filter only when
the category differs from the sentinel `"All"`. -/
def filterStep (products : List Product) (q category : String) : List Product :=
  let arr := products
  let arr := if queryActive q then arr.filter (fun p => nameMatches q p) else arr
  if category ≠ "All" then arr.filter (fun p => p.category == category) else arr

/-- The `filtered` useMemo of App.jsx lines 613-624 (the spec's
`deriveListing`): filter by name and category, then sort according to the sort
key string; any other key (the `default` switch case, in particular
`"relevance"`) leaves the filtered order untouched.  `Array.prototype.sort` is
stable (ES2019), modelled by the stable `List.mergeSort`; the numeric
comparators `a.priceINR - b.priceINR` etc. order by the written key. -/
def deriveListing (products : List Product) (q category sortKey : String) :
    List Product :=
  let arr := filterStep products q category
  if sortKey = "priceAsc" then arr.mergeSort (fun a b => a.priceINR ≤ b.priceINR)
  else if sortKey = "priceDesc" then arr.mergeSort (fun a b => b.priceINR ≤ a.priceINR)
  else if sortKey = "ratingDesc" then arr.mergeSort (fun a b => b.rating ≤ a.rating)
  else arr

/-- Cart line: the spread `{ ...p, qty: ... }` of App.jsx line 631 — a snapshot
of every product field taken at add time, plus the quantity. -/
structure CartLine extends Product where
  qty : Int
deriving DecidableEq

/-- The `addToCart` handler (App.jsx lines 627-634) acting on the cart list:
if a line with the product's id already exists its quantity grows by one,
otherwise a new line `{ ...p, qty: Math.max(1, p.moq || 1) }` is appended.
`p.moq || 1` is JavaScript falsiness: the value `1` replaces a zero `moq`. -/
def addToCart (p : Product) (prev : List CartLine) : List CartLine :=
  if prev.any (fun x => x.id == p.id) then
    prev.map (fun x => if x.id == p.id then { x with qty := x.qty + 1 } else x)
  else prev ++ [{ p with qty := max 1 (if p.moq = 0 then 1 else p.moq) }]

/-- The `setQty` handler (App.jsx line 635): overwrite the quantity of the line
with the given id, verbatim, leaving every other line alone. -/
def setQty (prev : List CartLine) (id : String) (qty : Int) : List CartLine :=
  prev.map (fun x => if x.id == id then { x with qty := qty } else x)

/-- The `removeItem` handler (App.jsx line 636). -/
def removeItem (prev : List CartLine) (id : String) : List CartLine :=
  prev.filter (fun x => !(x.id == id))

/-- The cart total `items.reduce((s, it) => s + it.priceINR * it.qty, 0)`
(App.jsx line 391, recomputed identically at line 638): each line contributes
its stored `priceINR` snapshot times its quantity. -/
def totalINR (items : List CartLine) : Int :=
  items.foldl (fun s it => s + it.priceINR * it.qty) 0

/-- Observable outcome of `checkout` (App.jsx lines 637-641): the total shown
in the success alert, the new cart contents, and the cart drawer visibility. -/
structure CheckoutOutcome where
  reportedTotalINR : Int
  cart : List CartLine
  cartOpen : Bool
deriving DecidableEq

/-- The `checkout` handler (App.jsx lines 637-641): compute the total of the
current cart, report success carrying that total (the alert), then clear the
cart (`setCart([])`) and hide the drawer (`setCartOpen(false)`).  There is no
branch: the function is total and unconditional. -/
def checkout (cart : List CartLine) : CheckoutOutcome :=
  { reportedTotalINR := totalINR cart, cart := [], cartOpen := false }

/-- Fields of the object passed by the RFQ modal to `submitRFQ` (App.jsx line
452): `{ productId, qty, location, target, notes }`. -/
structure RFQInput where
  productId : String
  qty : Int
  location : String
  target : String
  notes : String
deriving DecidableEq

/-- A stored RFQ: `{ id: Math.random().toString(36).slice(2), date: new
Date().toISOString(), ...data }` (App.jsx line 645).  The generated id and the
timestamp are environment-supplied strings and enter the model as inputs. -/
structure RFQRequest where
  id : String
  date : String
  productId : String
  qty : Int
  location : String
  target : String
  notes : String
deriving DecidableEq

/-- Assemble the stored request from the generated id, the timestamp and the
modal's data (App.jsx line 645). -/
def mkRFQ (genId date : String) (d : RFQInput) : RFQRequest :=
  { id := genId, date := date, productId := d.productId, qty := d.qty,
    location := d.location, target := d.target, notes := d.notes }

/-- The `submitRFQ` handler (App.jsx lines 644-648) acting on the RFQ list:
`setRfqs(prev => [rfq, ...prev])` prepends the new request. -/
def submitRFQ (genId date : String) (d : RFQInput) (prev : List RFQRequest) :
    List RFQRequest :=
  mkRFQ genId date d :: prev

/-- N successive `submitRFQ` calls, oldest submission first in the input list;
each triple carries the generated id, the timestamp and the modal data of one
submission. -/
def submitMany : List (String × String × RFQInput) → List RFQRequest → List RFQRequest
  | [], acc => acc
  | s :: rest, acc => submitMany rest (submitRFQ s.1 s.2.1 s.2.2 acc)

/-- JavaScript `Number(field) || d` as used by the farmer form (App.jsx lines
552-560): `none` stands for a field whose text does not parse to a number
(`Number` gives `NaN`, which is falsy), and a parsed `0` is falsy as well, so
both fall back to the default. -/
def numOr (v : Option Int) (d : Int) : Int :=
  match v with
  | none => d
  | some x => if x = 0 then d else x

/-- Math.floor of 95% of a price, the discounted single-tier price
`Math.floor((Number(form.priceINR) || 1) * 0.95)` computed by the farmer form
(App.jsx line 560), on the already-defaulted price value.  `Int.fdiv` rounds
toward negative infinity exactly as `Math.floor` does. -/
def floor95 (x : Int) : Int := Int.fdiv (x * 95) 100

/-- The product object built by `FarmerForm.handleSubmit` (App.jsx lines
546-564).  String fields arrive as typed; the numeric fields arrive as
`Option Int` (`none` = text that does not parse to a number, see `numOr`).
The id is the `Math.random().toString(36).slice(2)` string, an input here. -/
def farmerFormProduct (id name : String) (priceIn stockIn moqIn : Option Int)
    (category image farmerId : String) : Product :=
  { id := id,
    name := if name = "" then "New Product" else name,
    priceINR := numOr priceIn 0,
    stock := numOr stockIn 0,
    moq := numOr moqIn 1,
    category := category,
    image := if image = "" then
        "https://images.unsplash.com/photo-1542838132-92c53300491e?q=80&w=1200&auto=format&fit=crop"
      else image,
    farmerId := farmerId,
    rating := 46,
    bulkTiers := [⟨numOr moqIn 1, max 1 (floor95 (numOr priceIn 1))⟩] }

/-- The `saveProduct` handler (App.jsx line 651): prepend the new product to
the catalog. -/
def saveProduct (newP : Product) (prev : List Product) : List Product :=
  newP :: prev

/-- Adjacent-pair check for a tier list starting after `prev`: thresholds
ascend and unit prices never increase from one tier to the next. -/
def tierChainOk : BulkTier → List BulkTier → Bool
  | _, [] => true
  | prev, t :: ts => (prev.min ≤ t.min && t.priceINR ≤ prev.priceINR) && tierChainOk t ts

/-- The tier-schedule invariant claimed by the spec for a product: tiers sorted
ascending by threshold, each tier's price at most the base price and at most
the preceding tier's price. -/
def tiersOk (p : Product) : Bool :=
  p.bulkTiers.all (fun t => t.priceINR ≤ p.priceINR) &&
    (match p.bulkTiers with
     | [] => true
     | t :: ts => tierChainOk t ts)

/-- Thresholds of a tier list are strictly ascending (the shape of every tier
list in the mock data). -/
def ascendingMins : List BulkTier → Bool
  | [] => true
  | [_] => true
  | a :: b :: ts => (a.min < b.min) && ascendingMins (b :: ts)

/-- Modelled from the spec: the repository has no `unitPriceFor` function in
src/src/App.jsx (tier prices only feed the `BulkBadges` display), so the
Pricing Engine operation `unitPriceFor(product, quantity)` of spec §4.2 is
modelled from the spec's words: "scans the product's tier list and returns the
unit price of the tier with the greatest threshold ≤ quantity; if no tier
qualifies, returns the product's base price".  `scanTiers` is the scan with
the running best price. -/
def scanTiers (best : Int) (q : Int) : List BulkTier → Int
  | [] => best
  | t :: ts => if t.min ≤ q then scanTiers t.priceINR q ts else scanTiers best q ts

/-- Modelled from the spec: `unitPriceFor(product, quantity)` of spec §4.2,
scanning the (ascending) tier list starting from the base price. -/
def unitPriceFor (p : Product) (q : Int) : Int :=
  scanTiers p.priceINR q p.bulkTiers

/-- Single predicate equivalent of the two filter steps: a product passes when
the query is inactive or matches its name, and the category is `"All"` or
matches exactly. -/
def listingPred (q category : String) (p : Product) : Bool :=
  (!queryActive q || nameMatches q p) && (category == "All" || p.category == category)

/-- A product whose name contains no whitespace, used to separate the code's
`q.trim()` guard from the claim's "empty query" wording (the listing functions
are quantified over arbitrary product lists). -/
def plainMilk : Product :=
  { id := "m1", name := "Milk", priceINR := 60, stock := 100, moq := 1,
    category := "Dairy", image := "", farmerId := "f2", rating := 40,
    bulkTiers := [] }

/-- Listing derivation written from the claim's words rather than from the
code, for comparison with `deriveListing`: per the claim, the name filter
applies whenever the query is non-empty (rather than whenever it has a
non-whitespace character). -/
def specListing (products : List Product) (q category sortKey : String) :
    List Product :=
  let arr := products
  let arr := if q ≠ "" then arr.filter (fun p => nameMatches q p) else arr
  let arr := if category ≠ "All" then arr.filter (fun p => p.category == category) else arr
  if sortKey = "priceAsc" then arr.mergeSort (fun a b => a.priceINR ≤ b.priceINR)
  else if sortKey = "priceDesc" then arr.mergeSort (fun a b => b.priceINR ≤ a.priceINR)
  else if sortKey = "ratingDesc" then arr.mergeSort (fun a b => b.rating ≤ a.rating)
  else arr

/-! General lemmas about the embedded operations, shared by the claim
theorems below. -/

/-- Folding additions of mapped values equals the accumulator plus the sum. -/
lemma foldl_add_map (f : CartLine → Int) (a : Int) (l : List CartLine) :
    l.foldl (fun s it => s + f it) a = a + (l.map f).sum := by
  induction l generalizing a with
  | nil => simp
  | cons x t ih => simp [List.foldl_cons, ih, add_assoc]

/-- The cart total is the sum of price-snapshot times quantity over the lines. -/
lemma totalINR_eq_sum (items : List CartLine) :
    totalINR items = (items.map (fun it => it.priceINR * it.qty)).sum := by
  simpa using foldl_add_map (fun it => it.priceINR * it.qty) 0 items

/-- Adding a product to a cart none of whose lines carries its id appends one
new line with the initial quantity. -/
lemma addToCart_of_not_mem (p : Product) (cart : List CartLine)
    (h : ∀ x ∈ cart, x.id ≠ p.id) :
    addToCart p cart = cart ++ [{ p with qty := max 1 (if p.moq = 0 then 1 else p.moq) }] := by
  have hany : cart.any (fun x => x.id == p.id) = false := by
    simp only [List.any_eq_false]
    intro x hx
    simpa using h x hx
  simp [addToCart, hany]

/-- Lines whose id differs from the targeted one pass through a cart map
untouched. -/
lemma map_update_of_ne (cart : List CartLine) (pid : String)
    (f : CartLine → CartLine) (h : ∀ x ∈ cart, x.id ≠ pid) :
    cart.map (fun x => if x.id == pid then f x else x) = cart := by
  induction cart with
  | nil => rfl
  | cons a t ih =>
    have ha : (a.id == pid) = false := by
      simpa using h a (List.mem_cons_self a t)
    simp only [List.map_cons, ha, Bool.false_eq_true, if_false]
    rw [ih fun x hx => h x (List.mem_cons_of_mem a hx)]

/-- Filtering a cart for an id carried by none of its lines gives nothing. -/
lemma filter_id_eq_nil (cart : List CartLine) (pid : String)
    (h : ∀ x ∈ cart, x.id ≠ pid) :
    cart.filter (fun x => x.id == pid) = [] := by
  simp only [List.filter_eq_nil_iff]
  intro x hx
  simpa using h x hx

/-- Head threshold of a strictly ascending tier list bounds every later
threshold. -/
lemma ascendingMins_head_lt :
    ∀ (ts : List BulkTier) (a : BulkTier), ascendingMins (a :: ts) = true →
      ∀ u ∈ ts, a.min < u.min := by
  intro ts
  induction ts with
  | nil => intro a _ u hu; cases hu
  | cons b t ih =>
    intro a h u hu
    have hab : a.min < b.min := by
      simp only [ascendingMins, Bool.and_eq_true, decide_eq_true_eq] at h
      exact h.1
    have hbt : ascendingMins (b :: t) = true := by
      simp only [ascendingMins, Bool.and_eq_true] at h
      exact h.2
    rcases List.mem_cons.mp hu with rfl | hut
    · exact hab
    · exact lt_trans hab (ih b hbt u hut)

/-- Strict ascent passes to the tail of a tier list. -/
lemma ascendingMins_tail (a : BulkTier) (ts : List BulkTier)
    (h : ascendingMins (a :: ts) = true) : ascendingMins ts = true := by
  cases ts with
  | nil => rfl
  | cons b t =>
    simp only [ascendingMins, Bool.and_eq_true] at h
    exact h.2

/-- A scan over tiers none of which qualifies keeps the running price. -/
lemma scanTiers_of_none (q : Int) :
    ∀ (ts : List BulkTier) (best : Int), (∀ t ∈ ts, q < t.min) →
      scanTiers best q ts = best := by
  intro ts
  induction ts with
  | nil => intro best _; rfl
  | cons a t ih =>
    intro best h
    have ha : ¬ a.min ≤ q := not_le.mpr (h a (List.mem_cons_self a t))
    simp only [scanTiers, if_neg ha]
    exact ih best fun u hu => h u (List.mem_cons_of_mem a hu)

/-- On a strictly ascending tier list the scan returns the price of the
qualifying tier with the greatest threshold. -/
lemma scanTiers_greatest (q : Int) :
    ∀ (ts : List BulkTier) (best : Int), ascendingMins ts = true →
      ∀ t ∈ ts, t.min ≤ q → (∀ u ∈ ts, u.min ≤ q → u.min ≤ t.min) →
        scanTiers best q ts = t.priceINR := by
  intro ts
  induction ts with
  | nil => intro best _ t ht; cases ht
  | cons a rest ih =>
    intro best hasc t ht hle hmax
    have hasc' : ascendingMins rest = true := ascendingMins_tail a rest hasc
    rcases List.mem_cons.mp ht with rfl | htr
    · have ha : t.min ≤ q := hle
      have hrest : ∀ u ∈ rest, q < u.min := by
        intro u hu
        by_contra hqu
        push_neg at hqu
        have h1 := hmax u (List.mem_cons_of_mem t hu) hqu
        have h2 := ascendingMins_head_lt rest t hasc u hu
        omega
      simp only [scanTiers, if_pos ha]
      exact scanTiers_of_none q rest t.priceINR hrest
    · have hmax' : ∀ u ∈ rest, u.min ≤ q → u.min ≤ t.min := fun u hu huq =>
        hmax u (List.mem_cons_of_mem a hu) huq
      by_cases haq : a.min ≤ q
      · simp only [scanTiers, if_pos haq]
        exact ih a.priceINR hasc' t htr hle hmax'
      · simp only [scanTiers, if_neg haq]
        exact ih best hasc' t htr hle hmax'

/-! Claim theorems. -/

/-- C1, counterexample to the claim as stated: the Organic Tomatoes product
(moq 100) added twice to the empty cart — which contains no line for it —
yields exactly one line, but that line's quantity is 101, not 2. -/
theorem claimC1_cex :
    (∀ x ∈ ([] : List CartLine), x.id ≠ tomatoes.id) ∧
    (addToCart tomatoes (addToCart tomatoes [])).filter
        (fun x => x.id == tomatoes.id) = [{ tomatoes with qty := 101 }] ∧
    ¬ ((101 : Int) = 2) := by
  refine ⟨by simp, by decide, by decide⟩

/-- C1, amended: adding a product twice to a cart that does not yet contain it
yields exactly one line for it, whose quantity is `max(1, moq || 1) + 1`; that
quantity equals 2 exactly when the product's MOQ is at most 1. -/
theorem claimC1_theorem (p : Product) (cart : List CartLine)
    (h : ∀ x ∈ cart, x.id ≠ p.id) :
    (addToCart p (addToCart p cart)).filter (fun x => x.id == p.id) =
      [{ p with qty := max 1 (if p.moq = 0 then 1 else p.moq) + 1 }] ∧
    (max 1 (if p.moq = 0 then 1 else p.moq) + 1 = 2 ↔ p.moq ≤ 1) := by
  constructor
  · have h1 : addToCart p cart =
        cart ++ [{ p with qty := max 1 (if p.moq = 0 then 1 else p.moq) }] :=
      addToCart_of_not_mem p cart h
    have hany : (cart ++ [({ p with
        qty := max 1 (if p.moq = 0 then 1 else p.moq) } : CartLine)]).any
        (fun x => x.id == p.id) = true := by
      simp [List.any_append]
    rw [h1, addToCart, if_pos hany, List.map_append,
      map_update_of_ne cart p.id _ h, List.filter_append,
      filter_id_eq_nil cart p.id h]
    simp
  · by_cases hm : p.moq = 0
    · simp [hm]
    · simp only [if_neg hm]
      omega

/-- C1 witness: the amended statement instantiated at the Alphonso Mangoes
product and the empty cart. -/
theorem claimC1_witness :
    (addToCart mangoes (addToCart mangoes [])).filter
        (fun x => x.id == mangoes.id) =
      [{ mangoes with qty := max 1 (if mangoes.moq = 0 then 1 else mangoes.moq) + 1 }] ∧
    (max 1 (if mangoes.moq = 0 then 1 else mangoes.moq) + 1 = 2 ↔ mangoes.moq ≤ 1) :=
  claimC1_theorem mangoes [] (by intro x hx; cases hx)

/-- C2: on a product whose tier thresholds ascend strictly (every catalog
product), `unitPriceFor` returns the base price when the quantity is below
every threshold, returns the price of the qualifying tier with the greatest
threshold otherwise, and on the Tomatoes product gives 84 at quantity 300 and
89 at quantity 50. -/
theorem claimC2_theorem (p : Product) (q : Int)
    (hs : ascendingMins p.bulkTiers = true) :
    ((∀ t ∈ p.bulkTiers, q < t.min) → unitPriceFor p q = p.priceINR) ∧
    (∀ t ∈ p.bulkTiers, t.min ≤ q →
      (∀ u ∈ p.bulkTiers, u.min ≤ q → u.min ≤ t.min) →
      unitPriceFor p q = t.priceINR) ∧
    (unitPriceFor tomatoes 300 = 84 ∧ unitPriceFor tomatoes 50 = 89) := by
  refine ⟨fun h => scanTiers_of_none q p.bulkTiers p.priceINR h,
    fun t ht hle hmax => scanTiers_greatest q p.bulkTiers p.priceINR hs t ht hle hmax,
    by decide, by decide⟩

/-- C2 witness: the Tomatoes tier list is strictly ascending and the two
quoted quantities price as claimed. -/
theorem claimC2_witness :
    unitPriceFor tomatoes 300 = 84 ∧ unitPriceFor tomatoes 50 = 89 :=
  (claimC2_theorem tomatoes 300 (by decide)).2.2

/-- The farmer form's discounted tier price never exceeds a positive base
price. -/
lemma floor95_le (x : Int) (h : 1 ≤ x) : floor95 x ≤ x := by
  unfold floor95
  rw [Int.fdiv_eq_ediv _ (by norm_num)]
  omega

/-- The quantity `Math.max(1, moq || 1)` coincides with `max 1 moq`. -/
lemma maxqty_eq (m : Int) : max 1 (if m = 0 then 1 else m) = max 1 m := by
  rcases eq_or_ne m 0 with h | h
  · simp [h, Int.max_def]
  · simp [h]

/-- C3, counterexample to the claim as stated: a farmer-form submission whose
price field coerces to 0 (an empty or zero price input) produces a product
with base price 0 whose single bulk tier has unit price 1 — the tier price
exceeds the base price, violating the tier-schedule invariant. -/
theorem claimC3_cex :
    tiersOk (farmerFormProduct "x1" "Veg" (some 0) (some 5) (some 10)
      "Vegetables" "" "f1") = false ∧
    (farmerFormProduct "x1" "Veg" (some 0) (some 5) (some 10)
      "Vegetables" "" "f1").priceINR = 0 ∧
    (farmerFormProduct "x1" "Veg" (some 0) (some 5) (some 10)
      "Vegetables" "" "f1").bulkTiers = [⟨10, 1⟩] := by
  refine ⟨by decide, by decide, by decide⟩

/-- C3, amended: the tier-schedule invariant holds for each of the five
initial products, and for every farmer-form product whose coerced price is at
least 1 (the invariant can only break when the price field coerces to 0, in
which case the discounted tier price is clamped up to 1 while the base price
is 0); prepending a product that satisfies the invariant to a catalog of
products that satisfy it preserves it for every cataloged product. -/
theorem claimC3_theorem :
    (∀ p ∈ initialProducts, tiersOk p = true) ∧
    (∀ (id name : String) (priceIn stockIn moqIn : Option Int)
        (cat img fid : String), 1 ≤ numOr priceIn 0 →
      tiersOk (farmerFormProduct id name priceIn stockIn moqIn cat img fid) = true) ∧
    (∀ (newP : Product) (prev : List Product), tiersOk newP = true →
      (∀ x ∈ prev, tiersOk x = true) →
      ∀ x ∈ saveProduct newP prev, tiersOk x = true) := by
  refine ⟨by decide, ?_, ?_⟩
  · intro id name priceIn stockIn moqIn cat img fid h
    obtain ⟨x, rfl, hx1⟩ : ∃ x, priceIn = some x ∧ 1 ≤ x := by
      cases priceIn with
      | none => simp [numOr] at h
      | some x =>
        refine ⟨x, rfl, ?_⟩
        by_cases h0 : x = 0
        · simp [numOr, h0] at h
        · simpa [numOr, h0] using h
    have hne : x ≠ 0 := by omega
    have hnum0 : numOr (some x) 0 = x := by simp [numOr, hne]
    have hnum1 : numOr (some x) 1 = x := by simp [numOr, hne]
    simp only [tiersOk, farmerFormProduct, hnum0, hnum1, List.all_cons,
      List.all_nil, tierChainOk, Bool.and_true, decide_eq_true_eq]
    exact max_le (by omega) (floor95_le x hx1)
  · intro newP prev h1 h2 x hx
    rcases List.mem_cons.mp hx with rfl | hxp
    · exact h1
    · exact h2 x hxp

/-- C3 witness: a farmer-form submission with price 100 satisfies the coerced
price bound and its product satisfies the tier-schedule invariant. -/
theorem claimC3_witness :
    tiersOk (farmerFormProduct "x2" "Carrots" (some 100) (some 5) (some 10)
      "Vegetables" "" "f1") = true :=
  claimC3_theorem.2.1 "x2" "Carrots" (some 100) (some 5) (some 10)
    "Vegetables" "" "f1" (by decide)

/-- C4: the cart total is the sum over the lines of stored price snapshot
times quantity; replacing every line's bulk-tier list arbitrarily leaves the
total unchanged (tiers never influence it); adding any product to the empty
cart yields one line whose quantity is `max(1, moq || 1)` and a total of base
price times `max(1, moq)`; for the Organic Tomatoes product this is one line
of quantity 100 and total 8900. -/
theorem claimC4_theorem :
    (∀ items : List CartLine,
      totalINR items = (items.map (fun it => it.priceINR * it.qty)).sum) ∧
    (∀ (items : List CartLine) (f : CartLine → List BulkTier),
      totalINR (items.map fun l => { l with bulkTiers := f l }) = totalINR items) ∧
    (∀ p : Product,
      addToCart p [] = [{ p with qty := max 1 (if p.moq = 0 then 1 else p.moq) }] ∧
      totalINR (addToCart p []) = p.priceINR * max 1 p.moq) ∧
    (addToCart tomatoes [] = [{ tomatoes with qty := 100 }] ∧
      totalINR (addToCart tomatoes []) = 8900) := by
  refine ⟨totalINR_eq_sum, ?_, ?_, by decide, by decide⟩
  · intro items f
    rw [totalINR_eq_sum, totalINR_eq_sum, List.map_map]
    rfl
  · intro p
    have h0 : addToCart p [] =
        [{ p with qty := max 1 (if p.moq = 0 then 1 else p.moq) }] :=
      addToCart_of_not_mem p [] (by intro x hx; cases hx)
    refine ⟨h0, ?_⟩
    rw [h0, totalINR_eq_sum]
    simp [maxqty_eq]

/-- C5: `checkout` is a total function on every cart state; it reports the
pre-checkout total, leaves the cart empty with total 0, and hides the cart
view. -/
theorem claimC5_theorem (cart : List CartLine) :
    (checkout cart).reportedTotalINR = totalINR cart ∧
    (checkout cart).cart = [] ∧
    totalINR (checkout cart).cart = 0 ∧
    (checkout cart).cartOpen = false :=
  ⟨rfl, rfl, rfl, rfl⟩

/-- The two sequential filter steps of the listing pipeline collapse to one
filter by the combined predicate. -/
lemma filterStep_eq_filter (ps : List Product) (q c : String) :
    filterStep ps q c = ps.filter (listingPred q c) := by
  by_cases hq : queryActive q
  · by_cases hc : c = "All"
    · subst hc
      have hstep : filterStep ps q "All" = ps.filter (fun p => nameMatches q p) := by
        simp [filterStep, hq]
      rw [hstep]
      exact List.filter_congr fun a _ => by simp [listingPred, hq]
    · have hcb : (c == "All") = false := beq_eq_false_iff_ne.mpr hc
      have hstep : filterStep ps q c =
          (ps.filter (fun p => nameMatches q p)).filter (fun p => p.category == c) := by
        simp [filterStep, hq, hc]
      rw [hstep, List.filter_filter]
      exact List.filter_congr fun a _ => by
        simp [listingPred, hq, hcb, Bool.and_comm]
  · have hqb : queryActive q = false := by simpa using hq
    by_cases hc : c = "All"
    · subst hc
      have hstep : filterStep ps q "All" = ps := by
        simp [filterStep, hqb]
      rw [hstep]
      exact (List.filter_eq_self.mpr fun a _ => by simp [listingPred, hqb]).symm
    · have hcb : (c == "All") = false := beq_eq_false_iff_ne.mpr hc
      have hstep : filterStep ps q c = ps.filter (fun p => p.category == c) := by
        simp [filterStep, hqb, hc]
      rw [hstep]
      exact List.filter_congr fun a _ => by simp [listingPred, hqb, hcb]

/-- Every branch of the listing pipeline permutes the filtered input. -/
lemma deriveListing_perm (ps : List Product) (q c k : String) :
    (deriveListing ps q c k).Perm (ps.filter (listingPred q c)) := by
  simp only [deriveListing, filterStep_eq_filter]
  split_ifs with h1 h2 h3
  · exact List.mergeSort_perm _ _
  · exact List.mergeSort_perm _ _
  · exact List.mergeSort_perm _ _
  · exact List.Perm.refl _

/-- Membership in a derived listing: in the input and passing both filters. -/
lemma mem_deriveListing (ps : List Product) (q c k : String) (p : Product) :
    p ∈ deriveListing ps q c k ↔ p ∈ ps ∧ listingPred q c p = true := by
  rw [(deriveListing_perm ps q c k).mem_iff, List.mem_filter]

/-- Output of the stable sort is pairwise ordered by the comparator. -/
lemma mergeSort_pairwise (le : Product → Product → Bool)
    (htr : ∀ a b c, le a b = true → le b c = true → le a c = true)
    (hto : ∀ a b, (le a b || le b a) = true) (l : List Product) :
    (l.mergeSort le).Pairwise (fun a b => le a b = true) :=
  List.sorted_mergeSort htr hto l

/-- Sorting a second time with the same comparator changes nothing. -/
lemma mergeSort_fix (le : Product → Product → Bool)
    (htr : ∀ a b c, le a b = true → le b c = true → le a c = true)
    (hto : ∀ a b, (le a b || le b a) = true) (l : List Product) :
    (l.mergeSort le).mergeSort le = l.mergeSort le :=
  List.mergeSort_of_sorted (List.sorted_mergeSort htr hto l)

/-- Transitivity of the ascending-price comparator. -/
lemma priceAsc_trans : ∀ a b c : Product,
    (decide (a.priceINR ≤ b.priceINR)) = true →
    (decide (b.priceINR ≤ c.priceINR)) = true →
    (decide (a.priceINR ≤ c.priceINR)) = true := by
  intro a b c hab hbc
  simp only [decide_eq_true_eq] at *
  omega

/-- Totality of the ascending-price comparator. -/
lemma priceAsc_total : ∀ a b : Product,
    ((decide (a.priceINR ≤ b.priceINR)) || (decide (b.priceINR ≤ a.priceINR))) = true := by
  intro a b
  simp only [Bool.or_eq_true, decide_eq_true_eq]
  omega

/-- Transitivity of the descending-price comparator. -/
lemma priceDesc_trans : ∀ a b c : Product,
    (decide (b.priceINR ≤ a.priceINR)) = true →
    (decide (c.priceINR ≤ b.priceINR)) = true →
    (decide (c.priceINR ≤ a.priceINR)) = true := by
  intro a b c hab hbc
  simp only [decide_eq_true_eq] at *
  omega

/-- Totality of the descending-price comparator. -/
lemma priceDesc_total : ∀ a b : Product,
    ((decide (b.priceINR ≤ a.priceINR)) || (decide (a.priceINR ≤ b.priceINR))) = true := by
  intro a b
  simp only [Bool.or_eq_true, decide_eq_true_eq]
  omega

/-- Transitivity of the descending-rating comparator. -/
lemma ratingDesc_trans : ∀ a b c : Product,
    (decide (b.rating ≤ a.rating)) = true →
    (decide (c.rating ≤ b.rating)) = true →
    (decide (c.rating ≤ a.rating)) = true := by
  intro a b c hab hbc
  simp only [decide_eq_true_eq] at *
  omega

/-- Totality of the descending-rating comparator. -/
lemma ratingDesc_total : ∀ a b : Product,
    ((decide (b.rating ≤ a.rating)) || (decide (a.rating ≤ b.rating))) = true := by
  intro a b
  simp only [Bool.or_eq_true, decide_eq_true_eq]
  omega

/-- C6, counterexample to the claim as stated: on the one-product list holding
a product named "Milk", the all-whitespace query `" "` is not empty, and per
the claim's wording only products whose lowercased name contains `" "` should
survive — none here — yet the code returns the product unfiltered, because its
guard tests `q.trim()` rather than emptiness. -/
theorem claimC6_cex :
    deriveListing [plainMilk] " " "All" "relevance" = [plainMilk] ∧
    specListing [plainMilk] " " "All" "relevance" = [] ∧
    nameMatches " " plainMilk = false := by
  refine ⟨by decide, by decide, by decide⟩

/-- C6, amended: `deriveListing` returns the products passing the name filter
(applied only when the query contains a non-whitespace character, and matching
the untrimmed lowercased query) and the exact category filter (unless the
category is "All"); the result is the filtered list in input order for
`relevance`, and a permutation of it ordered ascending by base price for
`priceAsc`, descending by base price for `priceDesc`, and descending by
rating for `ratingDesc`.  Mutation of the input cannot arise: the embedding is
a pure function of the input list, matching the code's copy-before-sort. -/
theorem claimC6_theorem (ps : List Product) (q c : String) :
    deriveListing ps q c "relevance" = ps.filter (listingPred q c) ∧
    ((deriveListing ps q c "priceAsc").Perm (ps.filter (listingPred q c)) ∧
      (deriveListing ps q c "priceAsc").Pairwise
        (fun a b => a.priceINR ≤ b.priceINR)) ∧
    ((deriveListing ps q c "priceDesc").Perm (ps.filter (listingPred q c)) ∧
      (deriveListing ps q c "priceDesc").Pairwise
        (fun a b => b.priceINR ≤ a.priceINR)) ∧
    ((deriveListing ps q c "ratingDesc").Perm (ps.filter (listingPred q c)) ∧
      (deriveListing ps q c "ratingDesc").Pairwise
        (fun a b => b.rating ≤ a.rating)) := by
  refine ⟨?_, ⟨deriveListing_perm ps q c _, ?_⟩,
    ⟨deriveListing_perm ps q c _, ?_⟩, ⟨deriveListing_perm ps q c _, ?_⟩⟩
  · simp [deriveListing, filterStep_eq_filter]
  · have h := mergeSort_pairwise _ priceAsc_trans priceAsc_total (filterStep ps q c)
    have he : deriveListing ps q c "priceAsc" =
        (filterStep ps q c).mergeSort (fun a b => a.priceINR ≤ b.priceINR) := by
      simp [deriveListing]
    rw [he]
    exact h.imp fun hd => by simpa using hd
  · have h := mergeSort_pairwise _ priceDesc_trans priceDesc_total (filterStep ps q c)
    have he : deriveListing ps q c "priceDesc" =
        (filterStep ps q c).mergeSort (fun a b => b.priceINR ≤ a.priceINR) := by
      simp [deriveListing]
    rw [he]
    exact h.imp fun hd => by simpa using hd
  · have h := mergeSort_pairwise _ ratingDesc_trans ratingDesc_total (filterStep ps q c)
    have he : deriveListing ps q c "ratingDesc" =
        (filterStep ps q c).mergeSort (fun a b => b.rating ≤ a.rating) := by
      simp [deriveListing]
    rw [he]
    exact h.imp fun hd => by simpa using hd

/-- C8: `deriveListing` is idempotent — reapplying the same query, category
and sort key to its own output returns that output unchanged, for every sort
key string (the named keys and the default branch alike). -/
theorem claimC8_theorem (ps : List Product) (q c k : String) :
    deriveListing (deriveListing ps q c k) q c k = deriveListing ps q c k := by
  have hmem : ∀ x ∈ deriveListing ps q c k, listingPred q c x = true :=
    fun x hx => ((mem_deriveListing ps q c k x).mp hx).2
  set D := deriveListing ps q c k with hD
  have hfs : filterStep D q c = D := by
    rw [filterStep_eq_filter]
    exact List.filter_eq_self.mpr hmem
  have expand : deriveListing D q c k =
      (if k = "priceAsc" then D.mergeSort (fun a b => a.priceINR ≤ b.priceINR)
       else if k = "priceDesc" then D.mergeSort (fun a b => b.priceINR ≤ a.priceINR)
       else if k = "ratingDesc" then D.mergeSort (fun a b => b.rating ≤ a.rating)
       else D) := by
    simp only [deriveListing, hfs]
  rw [expand]
  split_ifs with h1 h2 h3
  · have hDA : D = (filterStep ps q c).mergeSort
        (fun a b => a.priceINR ≤ b.priceINR) := by
      rw [hD, h1]; simp [deriveListing]
    rw [hDA]
    exact mergeSort_fix _ priceAsc_trans priceAsc_total _
  · have hDA : D = (filterStep ps q c).mergeSort
        (fun a b => b.priceINR ≤ a.priceINR) := by
      rw [hD, h2]; simp [deriveListing]
    rw [hDA]
    exact mergeSort_fix _ priceDesc_trans priceDesc_total _
  · have hDA : D = (filterStep ps q c).mergeSort
        (fun a b => b.rating ≤ a.rating) := by
      rw [hD, h3]; simp [deriveListing]
    rw [hDA]
    exact mergeSort_fix _ ratingDesc_trans ratingDesc_total _
  · rfl

/-- C10: membership in a derived listing requires the untrimmed lowercased
query to occur in the lowercased name whenever the query has a non-whitespace
character, and applies no name filtering when the query is all whitespace; a
blank and an empty query are both inactive; concretely, the leading-space
query " milk" excludes the product named "Milk" even though its lowercased
name begins with the queried word, while the trimmed query "milk" keeps it. -/
theorem claimC10_theorem :
    (∀ (ps : List Product) (q c k : String) (p : Product),
      p ∈ deriveListing ps q c k ↔
        p ∈ ps ∧ (queryActive q = false ∨ nameMatches q p = true) ∧
          (c = "All" ∨ p.category = c)) ∧
    (queryActive " " = false ∧ queryActive "" = false) ∧
    (queryActive " milk" = true ∧
      List.isPrefixOf ("milk".toList) (lowerList plainMilk.name) = true ∧
      deriveListing [plainMilk] " milk" "All" "relevance" = [] ∧
      deriveListing [plainMilk] "milk" "All" "relevance" = [plainMilk]) := by
  refine ⟨?_, by decide, by decide⟩
  intro ps q c k p
  rw [mem_deriveListing]
  simp only [listingPred, Bool.and_eq_true, Bool.or_eq_true, Bool.not_eq_true',
    beq_iff_eq]

/-- N prepends performed by successive submissions are the reversed map of the
submissions over the request constructor. -/
lemma submitMany_eq (subs : List (String × String × RFQInput))
    (acc : List RFQRequest) :
    submitMany subs acc =
      (subs.map (fun s => mkRFQ s.1 s.2.1 s.2.2)).reverse ++ acc := by
  induction subs generalizing acc with
  | nil => simp [submitMany]
  | cons s rest ih =>
    simp [submitMany, submitRFQ, ih, List.append_assoc]

/-- C7, counterexample to the claim as stated: two submissions for which the
id generator (`Math.random().toString(36).slice(2)`, an input of the model)
returns the same string produce two entries whose identifiers are not
pairwise distinct — the code never enforces uniqueness. -/
theorem claimC7_cex :
    (submitMany [("dup", "t1", ⟨"p2", 300, "Pune", "", ""⟩),
        ("dup", "t2", ⟨"p1", 50, "Nashik", "", ""⟩)] []).length = 2 ∧
    ¬ ((submitMany [("dup", "t1", ⟨"p2", 300, "Pune", "", ""⟩),
        ("dup", "t2", ⟨"p1", 50, "Nashik", "", ""⟩)] []).map
          (fun r => r.id)).Nodup := by
  refine ⟨by decide, by decide⟩

/-- C7, amended: starting from the empty list, N submissions leave exactly N
requests, each new one prepended at the head (newest first), and the stored
identifiers are pairwise distinct provided the generated id strings fed to
the N calls are pairwise distinct — which the code assumes of
`Math.random` but does not enforce. -/
theorem claimC7_theorem (subs : List (String × String × RFQInput))
    (h : (subs.map (fun s => s.1)).Nodup) :
    (submitMany subs []).length = subs.length ∧
    submitMany subs [] = (subs.map (fun s => mkRFQ s.1 s.2.1 s.2.2)).reverse ∧
    ((submitMany subs []).map (fun r => r.id)).Nodup := by
  have he : submitMany subs [] =
      (subs.map (fun s => mkRFQ s.1 s.2.1 s.2.2)).reverse := by
    simpa using submitMany_eq subs []
  refine ⟨by rw [he]; simp, he, ?_⟩
  rw [he, List.map_reverse, List.map_map, List.nodup_reverse]
  exact h

/-- C7 witness: two submissions with distinct generated ids "a" and "b" give
two requests with pairwise distinct identifiers. -/
theorem claimC7_witness :
    ((submitMany [("a", "t1", ⟨"p2", 300, "Pune", "", ""⟩),
        ("b", "t2", ⟨"p1", 50, "Nashik", "", ""⟩)] []).map
          (fun r => r.id)).Nodup :=
  (claimC7_theorem [("a", "t1", ⟨"p2", 300, "Pune", "", ""⟩),
    ("b", "t2", ⟨"p1", 50, "Nashik", "", ""⟩)] (by decide)).2.2

/-- C9: on a cart containing a line with the given id, `setQty` accepts every
integer quantity — zero and negatives included — and succeeds: the cart keeps
its length, the line with that id holds exactly the given quantity, and every
line with a different id passes through unchanged. -/
theorem claimC9_theorem (cart : List CartLine) (id : String) (qty : Int)
    (h : ∃ x ∈ cart, x.id = id) :
    (setQty cart id qty).length = cart.length ∧
    (∃ x ∈ setQty cart id qty, x.id = id ∧ x.qty = qty) ∧
    (∀ x ∈ setQty cart id qty, x.id = id → x.qty = qty) ∧
    (∀ x ∈ cart, x.id ≠ id → x ∈ setQty cart id qty) := by
  refine ⟨by simp [setQty], ?_, ?_, ?_⟩
  · obtain ⟨x, hx, hxid⟩ := h
    have hb : (x.id == id) = true := beq_iff_eq.mpr hxid
    exact ⟨{ x with qty := qty }, List.mem_map.mpr ⟨x, hx, by simp [hb]⟩,
      hxid, rfl⟩
  · intro y hy hyid
    obtain ⟨x, hx, hfx⟩ := List.mem_map.mp hy
    by_cases hid : (x.id == id) = true
    · rw [← hfx]
      simp [hid]
    · have hid' : (x.id == id) = false := by simpa using hid
      rw [← hfx] at hyid
      simp only [hid', Bool.false_eq_true, if_false] at hyid
      exact absurd hyid (beq_eq_false_iff_ne.mp hid')
  · intro x hx hxid
    have hb : (x.id == id) = false := beq_eq_false_iff_ne.mpr hxid
    exact List.mem_map.mpr ⟨x, hx, by simp [hb]⟩

/-- C9 witness: the line for the Tomatoes snapshot accepts the negative
quantity -3 verbatim. -/
theorem claimC9_witness :
    ∃ x ∈ setQty [({ tomatoes with qty := 100 } : CartLine)] "p2" (-3),
      x.id = "p2" ∧ x.qty = -3 :=
  (claimC9_theorem [({ tomatoes with qty := 100 } : CartLine)] "p2" (-3)
    (by decide)).2.1

end FarmersAgent
